import Mathlib

/-!
# The scripted queues of mockoidc (queue.go)

A shallow embedding of the three queues of queue.go and of their operations,
followed by the properties proved about them.

Modelling conventions.

* A Go slice is a list: append(s, x) is s ++ [x], s[0] is the element at
  index 0 (taken with a proof that the index is in range), s[1:] is
  s.drop 1, and len(s) is s.length.
* A Go interface value (User, error) and a Go pointer (*ServerError) is an
  Option: none is nil, some v is a non-nil value. The queues never
  dereference a pointer and never call a method of an interface value, so
  the payload type is left abstract.
* Every method body runs between q.Lock() and the deferred q.Unlock(), so
  a call is one atomic step on the queue; the functions below are these
  steps, receiver in, result and receiver out. The mutexes themselves
  are added to the state in the section on the mutexes of the program.
* DefaultUser and randomNonce are declared outside queue.go; the result of
  DefaultUser() and the behaviour of randomNonce at a call are parameters
  of the Pop that calls them.
-/

namespace Mockoidc

/-! ## Data model -/

/-- ServerError is a tester-defined error for a handler to return. -/
structure ServerError where
  Code : Int
  Error : String
  Description : String
deriving DecidableEq

/-- The interface type User: nil, or a non-nil value with payload in υ. -/
abbrev User (υ : Type) : Type := Option υ

/-- The interface type error: nil, or a non-nil value with payload in ε. -/
abbrev GoError (ε : Type) : Type := Option ε

/-- UserQueue manages the queue of Users returned for each call to the
authorize endpoint. -/
structure UserQueue (υ : Type) where
  queue : List (User υ)
  defaultUser : User υ
deriving DecidableEq

/-- CodeQueue manages the queue of codes returned for each call to the
authorize endpoint. -/
structure CodeQueue where
  queue : List String
deriving DecidableEq

/-- ErrorQueue manages the queue of errors for handlers to return. -/
structure ErrorQueue where
  queue : List (Option ServerError)
deriving DecidableEq

/-! ## Operations -/

/-- Push adds a User to the queue: q.queue = append(q.queue, user). -/
def UserQueue.Push {υ : Type} (q : UserQueue υ) (user : User υ) : UserQueue υ :=
  { q with queue := q.queue ++ [user] }

/-- Pop a User from the queue. On an empty queue the stored defaultUser is
returned when it is not nil, and otherwise the result of DefaultUser(). -/
def UserQueue.Pop {υ : Type} (DefaultUser : User υ) (q : UserQueue υ) :
    User υ × UserQueue υ :=
  if h : q.queue.length = 0 then
    if q.defaultUser.isSome then
      (q.defaultUser, q)
    else
      (DefaultUser, q)
  else
    (q.queue.get ⟨0, Nat.pos_of_ne_zero h⟩, { q with queue := q.queue.drop 1 })

/-- SetDefaultUser stores user in the defaultUser field. -/
def UserQueue.SetDefaultUser {υ : Type} (q : UserQueue υ) (user : User υ) :
    UserQueue υ :=
  { q with defaultUser := user }

/-- Push adds a code to the queue: q.queue = append(q.queue, code). -/
def CodeQueue.Push (q : CodeQueue) (code : String) : CodeQueue :=
  { q with queue := q.queue ++ [code] }

/-- Pop a code from the queue. On an empty queue randomNonce(24) is called:
its error, when not nil, is returned with the empty string, and otherwise
its code is returned with a nil error. -/
def CodeQueue.Pop {ε : Type} (randomNonce : Nat → String × GoError ε)
    (q : CodeQueue) : (String × GoError ε) × CodeQueue :=
  if h : q.queue.length = 0 then
    match randomNonce 24 with
    | (_, some err) => (("", some err), q)
    | (code, none) => ((code, none), q)
  else
    ((q.queue.get ⟨0, Nat.pos_of_ne_zero h⟩, none),
      { q with queue := q.queue.drop 1 })

/-- Push adds a ServerError to the queue: q.queue = append(q.queue, se). -/
def ErrorQueue.Push (q : ErrorQueue) (se : Option ServerError) : ErrorQueue :=
  { q with queue := q.queue ++ [se] }

/-- Pop a ServerError from the queue. If empty, return nil. -/
def ErrorQueue.Pop (q : ErrorQueue) : Option ServerError × ErrorQueue :=
  if h : q.queue.length = 0 then
    (none, q)
  else
    (q.queue.get ⟨0, Nat.pos_of_ne_zero h⟩, { q with queue := q.queue.drop 1 })

/-! ## Running several operations

The callers of the queues are outside queue.go. The definitions below
describe what a caller does with a queue: a run of pushes, a run of pops,
and an arbitrary script of pushes and pops. They are generic in the queue:
push and pop are the methods of the queue at hand, and env is what the
environment supplies to a pop (nothing for UserQueue and ErrorQueue, the
behaviour of randomNonce at that call for CodeQueue). -/

/-- Push the items of xs one after another, first item first. -/
def pushAll {Q α : Type} (push : Q → α → Q) (q : Q) : List α → Q
  | [] => q
  | x :: xs => pushAll push (push q x) xs

/-- Pop n times; the k-th pop (counted from 0) runs in environment env k.
The results are listed in the order of the calls. -/
def popN {Q β ω : Type} (pop : ω → Q → β × Q) (env : Nat → ω) :
    Nat → Q → List β × Q
  | 0, q => ([], q)
  | n + 1, q =>
    let r := pop (env 0) q
    let rest := popN pop (fun k => env (k + 1)) n r.2
    (r.1 :: rest.1, rest.2)

/-- One call made by a caller: a push of an item, or a pop in a given
environment. -/
inductive Op (α ω : Type) where
  | push (x : α)
  | pop (env : ω)

/-- Run a script of pushes and pops. The log has one entry per pop, in call
order: whether the pop found the queue non-empty (len tells the number of
queued items), and what the pop returned. -/
def runOps {Q α β ω : Type} (push : Q → α → Q) (pop : ω → Q → β × Q)
    (len : Q → Nat) : Q → List (Op α ω) → List (Bool × β) × Q
  | q, [] => ([], q)
  | q, Op.push x :: ops => runOps push pop len (push q x) ops
  | q, Op.pop env :: ops =>
    let r := pop env q
    let rest := runOps push pop len r.2 ops
    ((decide (len q ≠ 0), r.1) :: rest.1, rest.2)

/-- The items pushed by a script, in push order. -/
def pushedItems {α ω : Type} : List (Op α ω) → List α
  | [] => []
  | Op.push x :: ops => x :: pushedItems ops
  | Op.pop _ :: ops => pushedItems ops

/-- The values returned by the pops of a log that found the queue
non-empty, in call order. -/
def dequeued {β : Type} (log : List (Bool × β)) : List β :=
  (log.filter (fun e => e.1)).map (fun e => e.2)

/-- Push the users of xs onto a UserQueue, in order. -/
def UserQueue.pushEach {υ : Type} (q : UserQueue υ) (xs : List (User υ)) :
    UserQueue υ :=
  pushAll UserQueue.Push q xs

/-- Pop a UserQueue n times; DefaultUser() returns D at every call. -/
def UserQueue.popTimes {υ : Type} (D : User υ) (n : Nat) (q : UserQueue υ) :
    List (User υ) × UserQueue υ :=
  popN (fun (_ : Unit) => UserQueue.Pop D) (fun _ => ()) n q

/-- Run a script on a UserQueue; DefaultUser() returns D at every call. -/
def UserQueue.run {υ : Type} (D : User υ) (q : UserQueue υ)
    (ops : List (Op (User υ) Unit)) : List (Bool × User υ) × UserQueue υ :=
  runOps UserQueue.Push (fun _ => UserQueue.Pop D) (fun q => q.queue.length) q ops

/-- Push the codes of xs onto a CodeQueue, in order. -/
def CodeQueue.pushEach (q : CodeQueue) (xs : List String) : CodeQueue :=
  pushAll CodeQueue.Push q xs

/-- Pop a CodeQueue n times; at the k-th pop randomNonce behaves as rn k. -/
def CodeQueue.popTimes {ε : Type} (rn : Nat → Nat → String × GoError ε) (n : Nat)
    (q : CodeQueue) : List (String × GoError ε) × CodeQueue :=
  popN CodeQueue.Pop rn n q

/-- Run a script on a CodeQueue; each pop of the script carries the behaviour
of randomNonce at that call. -/
def CodeQueue.run {ε : Type} (q : CodeQueue)
    (ops : List (Op String (Nat → String × GoError ε))) :
    List (Bool × (String × GoError ε)) × CodeQueue :=
  runOps CodeQueue.Push CodeQueue.Pop (fun q => q.queue.length) q ops

/-- Push the descriptors of xs onto an ErrorQueue, in order. -/
def ErrorQueue.pushEach (q : ErrorQueue) (xs : List (Option ServerError)) :
    ErrorQueue :=
  pushAll ErrorQueue.Push q xs

/-- Pop an ErrorQueue n times. -/
def ErrorQueue.popTimes (n : Nat) (q : ErrorQueue) :
    List (Option ServerError) × ErrorQueue :=
  popN (fun (_ : Unit) => ErrorQueue.Pop) (fun _ => ()) n q

/-- Run a script on an ErrorQueue. -/
def ErrorQueue.run (q : ErrorQueue) (ops : List (Op (Option ServerError) Unit)) :
    List (Bool × Option ServerError) × ErrorQueue :=
  runOps ErrorQueue.Push (fun _ => ErrorQueue.Pop) (fun q => q.queue.length) q ops

/-! ## The mutexes of the program

Each queue struct embeds a sync.Mutex, and each of the seven methods has the
shape q.Lock(); defer q.Unlock(); body, where Lock and Unlock are the methods
of the embedded mutex. Here the mutexes are part of the state. A mutex is
known by its address. The state of a queue in a running program tells which
mutexes of the program are held, its own and those of other queues, and
keeps the record of what has been done to them. -/

/-- An entry of the record: a call of Lock on mutex m that completed, a call
of Unlock on m that completed, or a run of the statements of a method of the
queue whose mutex is m, with the flag telling whether m was held then. -/
inductive LockEvent where
  | acquire (m : Nat)
  | release (m : Nat)
  | body (m : Nat) (held : Bool)
deriving DecidableEq

/-- A queue struct in a running program: self is the address of its embedded
sync.Mutex, held lists the mutexes of the program that are held, events is
the record so far, and fields are the other fields of the struct. -/
structure Guarded (Q : Type) where
  self : Nat
  held : List Nat
  events : List LockEvent
  fields : Q
deriving DecidableEq

/-- The call q.Lock(): it acquires the mutex embedded in q. When that mutex is
held the caller waits; with nobody to release it the call does not return,
which is the result none. -/
def Guarded.Lock {Q : Type} (g : Guarded Q) : Option (Guarded Q) :=
  if g.self ∈ g.held then none
  else some { g with held := g.self :: g.held,
                     events := g.events ++ [LockEvent.acquire g.self] }

/-- The call q.Unlock(): it releases the mutex embedded in q. Unlock of a mutex
that is not held is a fatal error of the Go runtime, the result none. -/
def Guarded.Unlock {Q : Type} (g : Guarded Q) : Option (Guarded Q) :=
  if g.self ∈ g.held then
    some { g with held := g.held.erase g.self,
                  events := g.events ++ [LockEvent.release g.self] }
  else none

/-- The statements of a method between q.Lock() and its return: they read and
write the fields of q. The record notes whether the mutex of q was held. -/
def Guarded.exec {Q β : Type} (body : Q → β × Q) (g : Guarded Q) : β × Guarded Q :=
  let r := body g.fields
  (r.1, { g with fields := r.2,
                 events := g.events ++ [LockEvent.body g.self (decide (g.self ∈ g.held))] })

/-- The shape shared by the seven methods: q.Lock(), then the statements of
the method, and at whichever return statement they leave, the deferred
q.Unlock(). The result is none when the call does not return. -/
def Guarded.locked {Q β : Type} (body : Q → β × Q) (g : Guarded Q) :
    Option (β × Guarded Q) :=
  match g.Lock with
  | none => none
  | some g1 =>
    let r := g1.exec body
    match r.2.Unlock with
    | none => none
    | some g2 => some (r.1, g2)

/-- The record that one call leaves when it takes the mutex m once, runs the
statements of the method under it and releases it. -/
def LockEvent.ofCall (m : Nat) : List LockEvent :=
  [LockEvent.acquire m, LockEvent.body m true, LockEvent.release m]

/-- UserQueue.Push with its locking. -/
def UserQueue.PushLocked {υ : Type} (g : Guarded (UserQueue υ)) (user : User υ) :
    Option (Unit × Guarded (UserQueue υ)) :=
  Guarded.locked (fun q => ((), UserQueue.Push q user)) g

/-- UserQueue.Pop with its locking. -/
def UserQueue.PopLocked {υ : Type} (DefaultUser : User υ)
    (g : Guarded (UserQueue υ)) : Option (User υ × Guarded (UserQueue υ)) :=
  Guarded.locked (UserQueue.Pop DefaultUser) g

/-- UserQueue.SetDefaultUser with its locking. -/
def UserQueue.SetDefaultUserLocked {υ : Type} (g : Guarded (UserQueue υ))
    (user : User υ) : Option (Unit × Guarded (UserQueue υ)) :=
  Guarded.locked (fun q => ((), UserQueue.SetDefaultUser q user)) g

/-- CodeQueue.Push with its locking. -/
def CodeQueue.PushLocked (g : Guarded CodeQueue) (code : String) :
    Option (Unit × Guarded CodeQueue) :=
  Guarded.locked (fun q => ((), CodeQueue.Push q code)) g

/-- CodeQueue.Pop with its locking. -/
def CodeQueue.PopLocked {ε : Type} (randomNonce : Nat → String × GoError ε)
    (g : Guarded CodeQueue) : Option ((String × GoError ε) × Guarded CodeQueue) :=
  Guarded.locked (CodeQueue.Pop randomNonce) g

/-- ErrorQueue.Push with its locking. -/
def ErrorQueue.PushLocked (g : Guarded ErrorQueue) (se : Option ServerError) :
    Option (Unit × Guarded ErrorQueue) :=
  Guarded.locked (fun q => ((), ErrorQueue.Push q se)) g

/-- ErrorQueue.Pop with its locking. -/
def ErrorQueue.PopLocked (g : Guarded ErrorQueue) :
    Option (Option ServerError × Guarded ErrorQueue) :=
  Guarded.locked ErrorQueue.Pop g

/-! ## Slice accesses with their run-time checks

The Pop methods above take queue[0] with a proof that the index is in range.
Below the two slice accesses carry the checks of the Go runtime instead, and
the Pop methods are written over them, so that a failed check is a result. -/

/-- The run-time panics of a slice access. -/
inductive Panic where
  | indexOutOfRange
  | sliceBoundsOutOfRange
deriving DecidableEq

/-- The index expression s[i]: a panic unless i < len(s). -/
def goIndex {α : Type} (s : List α) (i : Nat) : Except Panic α :=
  match s[i]? with
  | some x => Except.ok x
  | none => Except.error Panic.indexOutOfRange

/-- The slice expression s[low:]: a panic unless low ≤ len(s). -/
def goSliceFrom {α : Type} (s : List α) (low : Nat) : Except Panic (List α) :=
  if low ≤ s.length then Except.ok (s.drop low)
  else Except.error Panic.sliceBoundsOutOfRange

/-- UserQueue.Pop over the checked slice accesses. -/
def UserQueue.PopChecked {υ : Type} (DefaultUser : User υ) (q : UserQueue υ) :
    Except Panic (User υ × UserQueue υ) :=
  if q.queue.length = 0 then
    if q.defaultUser.isSome then
      Except.ok (q.defaultUser, q)
    else
      Except.ok (DefaultUser, q)
  else
    match goIndex q.queue 0 with
    | Except.error p => Except.error p
    | Except.ok user =>
      match goSliceFrom q.queue 1 with
      | Except.error p => Except.error p
      | Except.ok rest => Except.ok (user, { q with queue := rest })

/-- CodeQueue.Pop over the checked slice accesses. -/
def CodeQueue.PopChecked {ε : Type} (randomNonce : Nat → String × GoError ε)
    (q : CodeQueue) : Except Panic ((String × GoError ε) × CodeQueue) :=
  if q.queue.length = 0 then
    match randomNonce 24 with
    | (_, some err) => Except.ok (("", some err), q)
    | (code, none) => Except.ok ((code, none), q)
  else
    match goIndex q.queue 0 with
    | Except.error p => Except.error p
    | Except.ok code =>
      match goSliceFrom q.queue 1 with
      | Except.error p => Except.error p
      | Except.ok rest => Except.ok ((code, none), { q with queue := rest })

/-- ErrorQueue.Pop over the checked slice accesses. -/
def ErrorQueue.PopChecked (q : ErrorQueue) :
    Except Panic (Option ServerError × ErrorQueue) :=
  if q.queue.length = 0 then
    Except.ok (none, q)
  else
    match goIndex q.queue 0 with
    | Except.error p => Except.error p
    | Except.ok se =>
      match goSliceFrom q.queue 1 with
      | Except.error p => Except.error p
      | Except.ok rest => Except.ok (se, { q with queue := rest })

/-! ## A randomness source with state -/

/-- CodeQueue.Pop with randomNonce reading from a source of randomness: a call
of randomNonce takes the source as it is and leaves it changed, so the source
that Pop hands back tells whether randomNonce was called. -/
def CodeQueue.PopFrom {ρ ε : Type}
    (randomNonce : Nat → ρ → (String × GoError ε) × ρ) (src : ρ)
    (q : CodeQueue) : (String × GoError ε) × CodeQueue × ρ :=
  if h : q.queue.length = 0 then
    match randomNonce 24 src with
    | ((_, some err), src1) => (("", some err), q, src1)
    | ((code, none), src1) => ((code, none), q, src1)
  else
    ((q.queue.get ⟨0, Nat.pos_of_ne_zero h⟩, none),
      { q with queue := q.queue.drop 1 }, src)

/-! ## Queues of real descriptors -/

/-- Every queued descriptor is a non-nil pointer. -/
def ErrorQueue.allNonNil (q : ErrorQueue) : Bool :=
  q.queue.all (fun se => se.isSome)

/-! ## Basic facts about single operations -/

section basic

variable {υ ε : Type}

@[simp]
theorem UserQueue_Push_mk (s : List (User υ)) (d x : User υ) :
    UserQueue.Push ⟨s, d⟩ x = ⟨s ++ [x], d⟩ := rfl

@[simp]
theorem UserQueue_Pop_cons (D d h : User υ) (t : List (User υ)) :
    UserQueue.Pop D ⟨h :: t, d⟩ = (h, ⟨t, d⟩) := by
  simp [UserQueue.Pop]

@[simp]
theorem UserQueue_Pop_nil_some (D : User υ) (x : υ) :
    UserQueue.Pop D ⟨[], some x⟩ = (some x, ⟨[], some x⟩) := by
  simp [UserQueue.Pop]

@[simp]
theorem UserQueue_Pop_nil_none (D : User υ) :
    UserQueue.Pop D ⟨[], none⟩ = (D, ⟨[], none⟩) := by
  simp [UserQueue.Pop]

@[simp]
theorem UserQueue_SetDefaultUser_mk (s : List (User υ)) (d u : User υ) :
    UserQueue.SetDefaultUser ⟨s, d⟩ u = ⟨s, u⟩ := rfl

@[simp]
theorem CodeQueue_Push_mk (s : List String) (x : String) :
    CodeQueue.Push ⟨s⟩ x = ⟨s ++ [x]⟩ := rfl

@[simp]
theorem CodeQueue_Pop_cons (rn : Nat → String × GoError ε) (h : String)
    (t : List String) : CodeQueue.Pop rn ⟨h :: t⟩ = ((h, none), ⟨t⟩) := by
  simp [CodeQueue.Pop]

theorem CodeQueue_Pop_nil_ok (rn : Nat → String × GoError ε) (c : String)
    (hrn : rn 24 = (c, none)) : CodeQueue.Pop rn ⟨[]⟩ = ((c, none), ⟨[]⟩) := by
  simp [CodeQueue.Pop, hrn]

theorem CodeQueue_Pop_nil_err (rn : Nat → String × GoError ε) (c : String) (e : ε)
    (hrn : rn 24 = (c, some e)) : CodeQueue.Pop rn ⟨[]⟩ = (("", some e), ⟨[]⟩) := by
  simp [CodeQueue.Pop, hrn]

@[simp]
theorem ErrorQueue_Push_mk (s : List (Option ServerError))
    (x : Option ServerError) : ErrorQueue.Push ⟨s⟩ x = ⟨s ++ [x]⟩ := rfl

@[simp]
theorem ErrorQueue_Pop_cons (h : Option ServerError)
    (t : List (Option ServerError)) : ErrorQueue.Pop ⟨h :: t⟩ = (h, ⟨t⟩) := by
  simp [ErrorQueue.Pop]

@[simp]
theorem ErrorQueue_Pop_nil : ErrorQueue.Pop ⟨[]⟩ = (none, ⟨[]⟩) := by
  simp [ErrorQueue.Pop]

end basic

/-! ## Facts about runs of operations -/

section runs

variable {υ ε : Type}

theorem pushAll_UserQueue (xs s : List (User υ)) (d : User υ) :
    pushAll UserQueue.Push ⟨s, d⟩ xs = ⟨s ++ xs, d⟩ := by
  induction xs generalizing s with
  | nil => simp [pushAll]
  | cons x xs ih => simp [pushAll, ih]

theorem pushAll_CodeQueue (xs s : List String) :
    pushAll CodeQueue.Push ⟨s⟩ xs = ⟨s ++ xs⟩ := by
  induction xs generalizing s with
  | nil => simp [pushAll]
  | cons x xs ih => simp [pushAll, ih]

theorem pushAll_ErrorQueue (xs s : List (Option ServerError)) :
    pushAll ErrorQueue.Push ⟨s⟩ xs = ⟨s ++ xs⟩ := by
  induction xs generalizing s with
  | nil => simp [pushAll]
  | cons x xs ih => simp [pushAll, ih]

/-- Popping as many times as there are items in front returns these items. -/
theorem popN_UserQueue_append (D d : User υ) (env : Nat → Unit)
    (xs r : List (User υ)) :
    popN (fun _ => UserQueue.Pop D) env xs.length ⟨xs ++ r, d⟩ = (xs, ⟨r, d⟩) := by
  induction xs generalizing env with
  | nil => simp [popN]
  | cons x xs ih => simp [popN, ih]

theorem popN_CodeQueue_append (env : Nat → Nat → String × GoError ε)
    (xs r : List String) :
    popN CodeQueue.Pop env xs.length ⟨xs ++ r⟩
      = (xs.map (fun c => (c, none)), ⟨r⟩) := by
  induction xs generalizing env with
  | nil => simp [popN]
  | cons x xs ih => simp [popN, ih]

theorem popN_ErrorQueue_append (env : Nat → Unit)
    (xs r : List (Option ServerError)) :
    popN (fun _ => ErrorQueue.Pop) env xs.length ⟨xs ++ r⟩ = (xs, ⟨r⟩) := by
  induction xs generalizing env with
  | nil => simp [popN]
  | cons x xs ih => simp [popN, ih]

/-- A pop of a UserQueue without items changes nothing. -/
theorem UserQueue_Pop_nil_state (D d : User υ) :
    (UserQueue.Pop D ⟨[], d⟩).2 = ⟨[], d⟩ := by
  cases d <;> simp

/-- A pop of a CodeQueue without items changes nothing. -/
theorem CodeQueue_Pop_nil_state (rn : Nat → String × GoError ε) :
    (CodeQueue.Pop rn ⟨[]⟩).2 = ⟨[]⟩ := by
  rcases hrn : rn 24 with ⟨c, _ | e⟩
  · simp [CodeQueue_Pop_nil_ok rn c hrn]
  · simp [CodeQueue_Pop_nil_err rn c e hrn]

/-- Any number of pops of a UserQueue without items return the same value
and change nothing. -/
theorem popN_UserQueue_nil (D d : User υ) (env : Nat → Unit) (n : Nat) :
    popN (fun _ => UserQueue.Pop D) env n ⟨[], d⟩
      = (List.replicate n (UserQueue.Pop D ⟨[], d⟩).1, ⟨[], d⟩) := by
  induction n generalizing env with
  | zero => simp [popN]
  | succ n ih => simp [popN, UserQueue_Pop_nil_state, ih, List.replicate_succ]

/-- Any number of pops of a CodeQueue without items return what randomNonce
gives at each call and change nothing. -/
theorem popN_CodeQueue_nil (env : Nat → Nat → String × GoError ε) (n : Nat) :
    popN CodeQueue.Pop env n ⟨[]⟩
      = ((List.range n).map (fun k => (CodeQueue.Pop (env k) ⟨[]⟩).1), ⟨[]⟩) := by
  induction n generalizing env with
  | zero => simp [popN]
  | succ n ih =>
    simp [popN, CodeQueue_Pop_nil_state, ih, List.range_succ_eq_map, List.map_map,
      Function.comp_def]

theorem popN_ErrorQueue_nil (env : Nat → Unit) (n : Nat) :
    popN (fun _ => ErrorQueue.Pop) env n ⟨[]⟩ = (List.replicate n none, ⟨[]⟩) := by
  induction n generalizing env with
  | zero => simp [popN]
  | succ n ih => simp [popN, ih, List.replicate_succ]

end runs

/-! ## FIFO order -/

/-- C1. FIFO order, for each of UserQueue, CodeQueue and ErrorQueue: starting
from a queue without items, pushing the elements of xs in order and then
popping xs.length times returns exactly the elements of xs in the same order
(for CodeQueue each with a nil error, whatever randomNonce would do), and the
queue is empty afterwards. -/
theorem fifo_order {υ ε : Type} (D d : User υ)
    (rn : Nat → Nat → String × GoError ε) (us : List (User υ))
    (cs : List String) (es : List (Option ServerError)) :
    UserQueue.popTimes D us.length (UserQueue.pushEach ⟨[], d⟩ us)
        = (us, ⟨[], d⟩) ∧
    CodeQueue.popTimes rn cs.length (CodeQueue.pushEach ⟨[]⟩ cs)
        = (cs.map (fun c => (c, none)), ⟨[]⟩) ∧
    ErrorQueue.popTimes es.length (ErrorQueue.pushEach ⟨[]⟩ es)
        = (es, ⟨[]⟩) := by
  refine ⟨?_, ?_, ?_⟩
  · rw [UserQueue.pushEach, UserQueue.popTimes, pushAll_UserQueue]
    simpa using popN_UserQueue_append D d (fun _ => ()) us []
  · rw [CodeQueue.pushEach, CodeQueue.popTimes, pushAll_CodeQueue]
    simpa using popN_CodeQueue_append rn cs []
  · rw [ErrorQueue.pushEach, ErrorQueue.popTimes, pushAll_ErrorQueue]
    simpa using popN_ErrorQueue_append (fun _ => ()) es []

/-! ## No item is duplicated or lost -/

section scripts

variable {υ ε : Type}

/-- A script never changes the defaultUser field. -/
theorem runOps_UserQueue_defaultUser (D d : User υ) (ops : List (Op (User υ) Unit))
    (s : List (User υ)) :
    (runOps UserQueue.Push (fun _ => UserQueue.Pop D) (fun q => q.queue.length)
      ⟨s, d⟩ ops).2.defaultUser = d := by
  induction ops generalizing s with
  | nil => simp [runOps]
  | cons op ops ih =>
    cases op with
    | push x => simpa [runOps] using ih (s ++ [x])
    | pop env =>
      cases s with
      | nil =>
        have hst := UserQueue_Pop_nil_state D d
        simp only [runOps, hst]
        exact ih []
      | cons h t => simpa [runOps] using ih t

/-- Conservation of items for a UserQueue started with the items s. -/
theorem runOps_UserQueue_conserve (D d : User υ) (ops : List (Op (User υ) Unit))
    (s : List (User υ)) :
    dequeued (runOps UserQueue.Push (fun _ => UserQueue.Pop D)
        (fun q => q.queue.length) ⟨s, d⟩ ops).1
      ++ (runOps UserQueue.Push (fun _ => UserQueue.Pop D)
        (fun q => q.queue.length) ⟨s, d⟩ ops).2.queue
      = s ++ pushedItems ops := by
  induction ops generalizing s with
  | nil => simp [runOps, pushedItems, dequeued]
  | cons op ops ih =>
    cases op with
    | push x => simpa [runOps, pushedItems] using ih (s ++ [x])
    | pop env =>
      cases s with
      | nil =>
        have hst := UserQueue_Pop_nil_state D d
        have h := ih []
        simp only [runOps, hst, pushedItems]
        simpa [dequeued] using h
      | cons h t =>
        have h := ih t
        simp only [dequeued] at h
        simp [runOps, pushedItems, dequeued, h]

/-- Conservation of items for a CodeQueue started with the items s; the pops
that find an item return it with a nil error. -/
theorem runOps_CodeQueue_conserve
    (ops : List (Op String (Nat → String × GoError ε))) (s : List String) :
    (dequeued (runOps CodeQueue.Push CodeQueue.Pop
        (fun q => q.queue.length) ⟨s⟩ ops).1).map (fun e => e.1)
      ++ (runOps CodeQueue.Push CodeQueue.Pop
        (fun q => q.queue.length) ⟨s⟩ ops).2.queue
      = s ++ pushedItems ops ∧
    ∀ e ∈ dequeued (runOps CodeQueue.Push CodeQueue.Pop
        (fun q => q.queue.length) ⟨s⟩ ops).1, e.2 = none := by
  induction ops generalizing s with
  | nil => simp [runOps, pushedItems, dequeued]
  | cons op ops ih =>
    cases op with
    | push x => simpa [runOps, pushedItems] using ih (s ++ [x])
    | pop env =>
      cases s with
      | nil =>
        have hst := CodeQueue_Pop_nil_state env
        have h := ih []
        simp only [runOps, hst, pushedItems]
        simpa [dequeued] using h
      | cons h t =>
        have h := ih t
        simp only [dequeued] at h
        simp only [runOps, pushedItems, dequeued, CodeQueue_Pop_cons]
        simpa using h

/-- Conservation of items for an ErrorQueue started with the items s. -/
theorem runOps_ErrorQueue_conserve (ops : List (Op (Option ServerError) Unit))
    (s : List (Option ServerError)) :
    dequeued (runOps ErrorQueue.Push (fun _ => ErrorQueue.Pop)
        (fun q => q.queue.length) ⟨s⟩ ops).1
      ++ (runOps ErrorQueue.Push (fun _ => ErrorQueue.Pop)
        (fun q => q.queue.length) ⟨s⟩ ops).2.queue
      = s ++ pushedItems ops := by
  induction ops generalizing s with
  | nil => simp [runOps, pushedItems, dequeued]
  | cons op ops ih =>
    cases op with
    | push x => simpa [runOps, pushedItems] using ih (s ++ [x])
    | pop env =>
      cases s with
      | nil =>
        have h := ih []
        simp only [runOps, ErrorQueue_Pop_nil, pushedItems]
        simpa [dequeued] using h
      | cons h t =>
        have h := ih t
        simp only [dequeued] at h
        simp [runOps, pushedItems, dequeued, h]

/-- A list that is the front part of another is its prefix of that length. -/
theorem eq_take_of_append_eq {α : Type} {a b c : List α} (h : a ++ b = c) :
    a = c.take a.length ∧ b = c.drop a.length := by
  subst h
  simp

end scripts

/-- C2. No item is duplicated or lost: for each of the three queues and every
script of pushes and pops run on a queue without items, the values returned
by the pops that found the queue non-empty, followed by the items still
queued at the end, are the pushed items in push order (for CodeQueue these
pops return a nil error). The returned values are therefore the first pushed
items, one pop per item, and the queued ones are the remaining items. -/
theorem no_item_duplicated_or_lost {υ ε : Type} (D d : User υ)
    (opsU : List (Op (User υ) Unit))
    (opsC : List (Op String (Nat → String × GoError ε)))
    (opsE : List (Op (Option ServerError) Unit)) :
    (dequeued (UserQueue.run D ⟨[], d⟩ opsU).1 ++ (UserQueue.run D ⟨[], d⟩ opsU).2.queue
        = pushedItems opsU ∧
      dequeued (UserQueue.run D ⟨[], d⟩ opsU).1
        = (pushedItems opsU).take (dequeued (UserQueue.run D ⟨[], d⟩ opsU).1).length ∧
      (UserQueue.run D ⟨[], d⟩ opsU).2.queue
        = (pushedItems opsU).drop (dequeued (UserQueue.run D ⟨[], d⟩ opsU).1).length) ∧
    (dequeued (CodeQueue.run ⟨[]⟩ opsC).1
        = ((pushedItems opsC).take (dequeued (CodeQueue.run ⟨[]⟩ opsC).1).length).map
            (fun c => (c, none)) ∧
      (dequeued (CodeQueue.run ⟨[]⟩ opsC).1).map (fun e => e.1)
          ++ (CodeQueue.run ⟨[]⟩ opsC).2.queue
        = pushedItems opsC ∧
      (CodeQueue.run ⟨[]⟩ opsC).2.queue
        = (pushedItems opsC).drop (dequeued (CodeQueue.run ⟨[]⟩ opsC).1).length) ∧
    (dequeued (ErrorQueue.run ⟨[]⟩ opsE).1 ++ (ErrorQueue.run ⟨[]⟩ opsE).2.queue
        = pushedItems opsE ∧
      dequeued (ErrorQueue.run ⟨[]⟩ opsE).1
        = (pushedItems opsE).take (dequeued (ErrorQueue.run ⟨[]⟩ opsE).1).length ∧
      (ErrorQueue.run ⟨[]⟩ opsE).2.queue
        = (pushedItems opsE).drop (dequeued (ErrorQueue.run ⟨[]⟩ opsE).1).length) := by
  have hU := runOps_UserQueue_conserve D d opsU []
  have hC := runOps_CodeQueue_conserve opsC []
  have hE := runOps_ErrorQueue_conserve opsE []
  rw [List.nil_append] at hU hE
  rw [List.nil_append] at hC
  refine ⟨⟨hU, eq_take_of_append_eq hU⟩, ⟨?_, hC.1, ?_⟩, ⟨hE, eq_take_of_append_eq hE⟩⟩
  · have ht := (eq_take_of_append_eq hC.1).1
    rw [List.length_map] at ht
    have hmap : dequeued (CodeQueue.run ⟨[]⟩ opsC).1
        = ((dequeued (CodeQueue.run ⟨[]⟩ opsC).1).map (fun e => e.1)).map
            (fun c => (c, none)) := by
      rw [List.map_map]
      conv_lhs => rw [← List.map_id (dequeued (CodeQueue.run ⟨[]⟩ opsC).1)]
      apply List.map_congr_left
      intro e he
      have := hC.2 e he
      rcases e with ⟨c, err⟩
      simp at this
      simp [this]
    rw [hmap]
    congr 1
    simpa [CodeQueue.run] using ht
  · have ht := (eq_take_of_append_eq hC.1).2
    rw [List.length_map] at ht
    exact ht

/-! ## Fallback values of an empty queue -/

/-- C3, as stated, fails for the nil identity: SetDefaultUser(nil) on an empty
UserQueue, with DefaultUser() returning the non-nil user 7, is followed by a
Pop that returns user 7 and not nil. -/
theorem default_override_nil_counterexample :
    (UserQueue.Pop (some 7)
        (UserQueue.SetDefaultUser (⟨[], none⟩ : UserQueue Nat) none)).1 = some 7 ∧
    (UserQueue.Pop (some 7)
        (UserQueue.SetDefaultUser (⟨[], none⟩ : UserQueue Nat) none)).1 ≠ none := by
  decide

/-- C3, amended. Default override: for every non-nil identity x, after
SetDefaultUser(x) on a UserQueue without items (whatever its previous
default), each of any number n of subsequent pops returns x, and the queue
is left without items and with default x. -/
theorem default_override_non_nil {υ : Type} (D d : User υ) (x : υ) (n : Nat) :
    UserQueue.popTimes D n (UserQueue.SetDefaultUser ⟨[], d⟩ (some x))
      = (List.replicate n (some x), ⟨[], some x⟩) := by
  rw [UserQueue.popTimes, UserQueue_SetDefaultUser_mk, popN_UserQueue_nil]
  simp

/-- C4. Identity fallback: a UserQueue with no items and a nil defaultUser
returns the value D of DefaultUser() at a pop, at every one of any number n
of consecutive pops, and neither the item sequence nor the defaultUser field
changes. -/
theorem identity_fallback {υ : Type} (D : User υ) (n : Nat) :
    UserQueue.Pop D ⟨[], none⟩ = (D, ⟨[], none⟩) ∧
    UserQueue.popTimes D n ⟨[], none⟩ = (List.replicate n D, ⟨[], none⟩) := by
  refine ⟨UserQueue_Pop_nil_none D, ?_⟩
  rw [UserQueue.popTimes, popN_UserQueue_nil]
  simp

/-- C5. CodeQueue.Pop on an empty queue asks randomNonce for length 24 and for
nothing else, and returns an error exactly when that call does: a result
(c, nil) is returned as it is, a result with error e is returned as the empty
string with e. On a non-empty queue the error is nil. -/
theorem CodeQueue_Pop_error_iff {ε : Type} (rn : Nat → String × GoError ε) :
    (∀ c : String, rn 24 = (c, none) → CodeQueue.Pop rn ⟨[]⟩ = ((c, none), ⟨[]⟩)) ∧
    (∀ (c : String) (e : ε), rn 24 = (c, some e) →
        CodeQueue.Pop rn ⟨[]⟩ = (("", some e), ⟨[]⟩)) ∧
    (CodeQueue.Pop rn ⟨[]⟩).1.2 = (rn 24).2 ∧
    ((CodeQueue.Pop rn ⟨[]⟩).1.2 ≠ none ↔ (rn 24).2 ≠ none) ∧
    (∀ rn2 : Nat → String × GoError ε, rn2 24 = rn 24 →
        CodeQueue.Pop rn2 ⟨[]⟩ = CodeQueue.Pop rn ⟨[]⟩) ∧
    (∀ (h : String) (t : List String), (CodeQueue.Pop rn ⟨h :: t⟩).1.2 = none) := by
  have herr : (CodeQueue.Pop rn ⟨[]⟩).1.2 = (rn 24).2 := by
    rcases hrn : rn 24 with ⟨c, _ | e⟩
    · simp [CodeQueue_Pop_nil_ok rn c hrn]
    · simp [CodeQueue_Pop_nil_err rn c e hrn]
  refine ⟨fun c hc => CodeQueue_Pop_nil_ok rn c hc,
    fun c e hc => CodeQueue_Pop_nil_err rn c e hc, herr, by rw [herr], ?_, ?_⟩
  · intro rn2 h2
    simp [CodeQueue.Pop, h2]
  · intro h t
    simp

/-- C5 at concrete behaviours of randomNonce: a call that succeeds with the
code abc, and a call that fails with the error entropy. -/
theorem CodeQueue_Pop_error_iff_witness :
    CodeQueue.Pop (fun _ => ("abc", (none : GoError String))) ⟨[]⟩
        = (("abc", none), ⟨[]⟩) ∧
    CodeQueue.Pop (fun _ => ("abc", some "entropy")) ⟨[]⟩
        = (("", some "entropy"), ⟨[]⟩) :=
  ⟨(CodeQueue_Pop_error_iff (fun _ => ("abc", (none : GoError String)))).1 "abc" rfl,
   (CodeQueue_Pop_error_iff (fun _ => ("abc", some "entropy"))).2.1
      "abc" "entropy" rfl⟩

/-- C6. Error fallback: ErrorQueue.Pop on an empty queue returns nil and leaves
it empty; and for every descriptor se, Push(se) on an empty queue followed by
Pop returns exactly se, fields unchanged, and a further Pop returns nil
again. -/
theorem error_fallback (se : Option ServerError) (code : Int)
    (err desc : String) :
    ErrorQueue.Pop ⟨[]⟩ = (none, ⟨[]⟩) ∧
    ErrorQueue.Pop (ErrorQueue.Push ⟨[]⟩ se) = (se, ⟨[]⟩) ∧
    ErrorQueue.Pop (ErrorQueue.Pop (ErrorQueue.Push ⟨[]⟩ se)).2 = (none, ⟨[]⟩) ∧
    ErrorQueue.Pop (ErrorQueue.Push ⟨[]⟩ (some ⟨code, err, desc⟩))
      = (some ⟨code, err, desc⟩, ⟨[]⟩) ∧
    ErrorQueue.popTimes 2 (ErrorQueue.Push ⟨[]⟩ (some ⟨code, err, desc⟩))
      = ([some ⟨code, err, desc⟩, none], ⟨[]⟩) := by
  simp [ErrorQueue.popTimes, popN]

/-- C7. Idempotence of emptiness: for each of the three queues a Pop of a
queue without items leaves the state unchanged (for UserQueue the
defaultUser field too; for CodeQueue whether or not randomNonce fails, so
the synthesized code is not stored), and each of any number n of consecutive
pops of such a queue returns the fallback of an empty queue. -/
theorem pop_empty_idempotent {υ ε : Type} (D d : User υ)
    (rn : Nat → String × GoError ε) (env : Nat → Nat → String × GoError ε)
    (n : Nat) :
    (UserQueue.Pop D ⟨[], d⟩).2 = ⟨[], d⟩ ∧
    (CodeQueue.Pop rn ⟨[]⟩).2 = ⟨[]⟩ ∧
    (ErrorQueue.Pop ⟨[]⟩).2 = ⟨[]⟩ ∧
    UserQueue.popTimes D n ⟨[], d⟩
      = (List.replicate n (if d.isSome then d else D), ⟨[], d⟩) ∧
    CodeQueue.popTimes env n ⟨[]⟩
      = ((List.range n).map (fun k => (CodeQueue.Pop (env k) ⟨[]⟩).1), ⟨[]⟩) ∧
    ErrorQueue.popTimes n ⟨[]⟩ = (List.replicate n none, ⟨[]⟩) := by
  refine ⟨UserQueue_Pop_nil_state D d, CodeQueue_Pop_nil_state rn, by simp, ?_,
    popN_CodeQueue_nil env n, popN_ErrorQueue_nil _ n⟩
  rw [UserQueue.popTimes, popN_UserQueue_nil]
  cases d <;> simp

/-! ## Single operations -/

/-- C8. Push appends at the tail: for each of the three queues, every item
sequence s and every item x, Push(x) yields the item sequence s ++ [x]: the
length grows by exactly 1, the first s.length items are those of s, and x is
last. Push is a total function, and on a UserQueue it leaves defaultUser as
it was. -/
theorem push_appends {υ : Type} (d u : User υ) (su : List (User υ))
    (c : String) (sc : List String) (e : Option ServerError)
    (se : List (Option ServerError)) :
    (UserQueue.Push ⟨su, d⟩ u = ⟨su ++ [u], d⟩ ∧
      (UserQueue.Push ⟨su, d⟩ u).queue.length = su.length + 1 ∧
      (UserQueue.Push ⟨su, d⟩ u).queue.take su.length = su ∧
      (UserQueue.Push ⟨su, d⟩ u).queue.getLast? = some u) ∧
    (CodeQueue.Push ⟨sc⟩ c = ⟨sc ++ [c]⟩ ∧
      (CodeQueue.Push ⟨sc⟩ c).queue.length = sc.length + 1 ∧
      (CodeQueue.Push ⟨sc⟩ c).queue.take sc.length = sc ∧
      (CodeQueue.Push ⟨sc⟩ c).queue.getLast? = some c) ∧
    (ErrorQueue.Push ⟨se⟩ e = ⟨se ++ [e]⟩ ∧
      (ErrorQueue.Push ⟨se⟩ e).queue.length = se.length + 1 ∧
      (ErrorQueue.Push ⟨se⟩ e).queue.take se.length = se ∧
      (ErrorQueue.Push ⟨se⟩ e).queue.getLast? = some e) := by
  simp

/-- C9. Pop removes and returns the head: for each of the three queues and
every item sequence h :: t, Pop returns h (CodeQueue: with a nil error,
whatever randomNonce would do) and leaves the item sequence t, one item
shorter. For UserQueue this holds for every defaultUser d and every value D
of DefaultUser(), and defaultUser stays d. -/
theorem pop_returns_head {υ ε : Type} (D d hu : User υ) (tu : List (User υ))
    (rn : Nat → String × GoError ε) (hc : String) (tc : List String)
    (he : Option ServerError) (te : List (Option ServerError)) :
    (UserQueue.Pop D ⟨hu :: tu, d⟩ = (hu, ⟨tu, d⟩) ∧
      (UserQueue.Pop D ⟨hu :: tu, d⟩).2.queue.length + 1 = (hu :: tu).length) ∧
    (CodeQueue.Pop rn ⟨hc :: tc⟩ = ((hc, none), ⟨tc⟩) ∧
      (CodeQueue.Pop rn ⟨hc :: tc⟩).2.queue.length + 1 = (hc :: tc).length) ∧
    (ErrorQueue.Pop ⟨he :: te⟩ = (he, ⟨te⟩) ∧
      (ErrorQueue.Pop ⟨he :: te⟩).2.queue.length + 1 = (he :: te).length) := by
  simp

/-- C10. SetDefaultUser changes only the default: for every UserQueue state q
and every identity u, SetDefaultUser(u) leaves the item sequence unchanged
and sets defaultUser to u; after SetDefaultUser(v) it gives the same state
as alone; and the pops that drain the first queued items s of a queue
holding s ++ r return s with the call as without it, leaving r queued. -/
theorem SetDefaultUser_frame {υ : Type} (D u v d : User υ) (q : UserQueue υ)
    (s r : List (User υ)) :
    (UserQueue.SetDefaultUser q u).queue = q.queue ∧
    (UserQueue.SetDefaultUser q u).defaultUser = u ∧
    UserQueue.SetDefaultUser (UserQueue.SetDefaultUser q v) u
      = UserQueue.SetDefaultUser q u ∧
    UserQueue.popTimes D s.length (UserQueue.SetDefaultUser ⟨s ++ r, d⟩ u)
      = (s, ⟨r, u⟩) ∧
    UserQueue.popTimes D s.length ⟨s ++ r, d⟩ = (s, ⟨r, d⟩) := by
  refine ⟨rfl, rfl, rfl, ?_, ?_⟩
  · rw [UserQueue.popTimes, UserQueue_SetDefaultUser_mk]
    exact popN_UserQueue_append D u _ s r
  · exact popN_UserQueue_append D d _ s r

/-! ## The doc comment of UserQueue.Pop -/

/-- C11. The doc comment of UserQueue.Pop promises DefaultUser() for every
queue without items. The code at the queue without items whose defaultUser
is user 5, with DefaultUser() returning user 7: Pop returns user 5, and not
user 7 as the comment says. -/
theorem UserQueue_Pop_doc_comment_divergence :
    (UserQueue.Pop (some 7) (⟨[], some 5⟩ : UserQueue Nat)).1 = some 5 ∧
    (UserQueue.Pop (some 7) (⟨[], some 5⟩ : UserQueue Nat)).1 ≠ some 7 := by
  decide

/-- What Pop returns on a UserQueue without items, in full: the defaultUser
field when it is not nil, and the value D of DefaultUser() when it is nil;
the queue is left as it was. -/
theorem pop_empty_returns_default {υ : Type} (D d : User υ) (x : υ) :
    UserQueue.Pop D ⟨[], d⟩ = (if d.isSome then d else D, ⟨[], d⟩) ∧
    (UserQueue.Pop D ⟨[], some x⟩).1 = some x ∧
    (UserQueue.Pop D ⟨[], none⟩).1 = D := by
  refine ⟨?_, by simp, by simp⟩
  cases d <;> simp

/-! ## Concurrent callers

Every call holds the mutex of the queue from its first statement to its
return, so the calls of concurrent pushers and poppers on one queue take
place one after another, in some order. Such an order is a script; what
holds for every script holds for every way the callers can be interleaved. -/

section interleavings

variable {Q α β ω : Type}

/-- A script run in two parts: the log is the log of the first part followed
by the log of the second part, run from where the first part ends. -/
theorem runOps_append (push : Q → α → Q) (pop : ω → Q → β × Q) (len : Q → Nat)
    (a b : List (Op α ω)) (q : Q) :
    runOps push pop len q (a ++ b)
      = ((runOps push pop len q a).1
            ++ (runOps push pop len (runOps push pop len q a).2 b).1,
          (runOps push pop len (runOps push pop len q a).2 b).2) := by
  induction a generalizing q with
  | nil => simp [runOps]
  | cons op a ih =>
    cases op with
    | push x => simpa [runOps] using ih (push q x)
    | pop env => simp [runOps, ih]

theorem pushedItems_append (a b : List (Op α ω)) :
    pushedItems (a ++ b) = pushedItems a ++ pushedItems b := by
  induction a with
  | nil => simp [pushedItems]
  | cons op a ih => cases op <;> simp [pushedItems, ih]

/-- When n distinct items split into a front part and a rest, the front part
has no repetition, front and rest count n items together, and the front part
has all n items exactly when the rest is empty. -/
theorem front_of_distinct {a b c : List α} {n : Nat} (h : a ++ b = c)
    (hn : c.length = n) (hd : c.Nodup) :
    a.Nodup ∧ a.length + b.length = n ∧ (a.length = n ↔ b = []) := by
  subst h
  rw [List.length_append] at hn
  refine ⟨hd.of_append_left, hn, ?_⟩
  rw [← List.length_eq_zero]
  omega

end interleavings

/-- C12, as stated, fails on the count. One pusher with one item (N = M = 1)
and one popper: in the order where the popper calls Pop first, it gets the
fallback and stops, and the push comes after. One item was pushed, no item
was retrieved by a non-fallback pop, and 0 is not 1 × 1. The same on an
ErrorQueue. -/
theorem concurrent_count_counterexample :
    pushedItems ([Op.pop (), Op.push (some 1)] : List (Op (User Nat) Unit)) = [some 1] ∧
    (UserQueue.run (some 0) ⟨[], none⟩ [Op.pop (), Op.push (some 1)]).1
      = [(false, some 0)] ∧
    (dequeued (UserQueue.run (some 0) (⟨[], none⟩ : UserQueue Nat)
      [Op.pop (), Op.push (some 1)]).1).length ≠ 1 * 1 ∧
    (dequeued (ErrorQueue.run ⟨[]⟩
      [Op.pop (), Op.push (some ⟨429, "rate_limited", "too many requests"⟩)]).1).length
        ≠ 1 * 1 := by
  decide

/-- C12, amended. Concurrency safety per queue, for every order in which the
calls of the pushers and poppers take place. The order is given in two parts,
what has happened up to some moment and what happens after it, and its
pushes count N × M distinct items. Then, for each of the three queues: no
item is retrieved twice by the non-fallback pops; the items retrieved and the
items still queued at the end count exactly N × M together, so that exactly
N × M items are retrieved if and only if the queue is empty at the end; and
no item is retrieved before it was pushed: the pops of the first part are the
first entries of the log, and what they retrieve are the first items pushed
in that part, in push order. -/
theorem interleaving_safety {υ ε : Type} (N M : Nat) (D d : User υ)
    (preU postU : List (Op (User υ) Unit))
    (preC postC : List (Op String (Nat → String × GoError ε)))
    (preE postE : List (Op (Option ServerError) Unit))
    (hU : (pushedItems (preU ++ postU)).length = N * M)
    (hUd : (pushedItems (preU ++ postU)).Nodup)
    (hC : (pushedItems (preC ++ postC)).length = N * M)
    (hCd : (pushedItems (preC ++ postC)).Nodup)
    (hE : (pushedItems (preE ++ postE)).length = N * M)
    (hEd : (pushedItems (preE ++ postE)).Nodup) :
    ((dequeued (UserQueue.run D ⟨[], d⟩ (preU ++ postU)).1).Nodup ∧
      (dequeued (UserQueue.run D ⟨[], d⟩ (preU ++ postU)).1).length
          + (UserQueue.run D ⟨[], d⟩ (preU ++ postU)).2.queue.length = N * M ∧
      ((dequeued (UserQueue.run D ⟨[], d⟩ (preU ++ postU)).1).length = N * M ↔
          (UserQueue.run D ⟨[], d⟩ (preU ++ postU)).2.queue = []) ∧
      (UserQueue.run D ⟨[], d⟩ (preU ++ postU)).1
          = (UserQueue.run D ⟨[], d⟩ preU).1
            ++ (UserQueue.run D (UserQueue.run D ⟨[], d⟩ preU).2 postU).1 ∧
      dequeued (UserQueue.run D ⟨[], d⟩ preU).1 <+: pushedItems preU) ∧
    (((dequeued (CodeQueue.run ⟨[]⟩ (preC ++ postC)).1).map (fun e => e.1)).Nodup ∧
      ((dequeued (CodeQueue.run ⟨[]⟩ (preC ++ postC)).1).map (fun e => e.1)).length
          + (CodeQueue.run ⟨[]⟩ (preC ++ postC)).2.queue.length = N * M ∧
      (((dequeued (CodeQueue.run ⟨[]⟩ (preC ++ postC)).1).map (fun e => e.1)).length
            = N * M ↔
          (CodeQueue.run ⟨[]⟩ (preC ++ postC)).2.queue = []) ∧
      (CodeQueue.run ⟨[]⟩ (preC ++ postC)).1
          = (CodeQueue.run ⟨[]⟩ preC).1
            ++ (CodeQueue.run (CodeQueue.run ⟨[]⟩ preC).2 postC).1 ∧
      (dequeued (CodeQueue.run ⟨[]⟩ preC).1).map (fun e => e.1) <+: pushedItems preC) ∧
    ((dequeued (ErrorQueue.run ⟨[]⟩ (preE ++ postE)).1).Nodup ∧
      (dequeued (ErrorQueue.run ⟨[]⟩ (preE ++ postE)).1).length
          + (ErrorQueue.run ⟨[]⟩ (preE ++ postE)).2.queue.length = N * M ∧
      ((dequeued (ErrorQueue.run ⟨[]⟩ (preE ++ postE)).1).length = N * M ↔
          (ErrorQueue.run ⟨[]⟩ (preE ++ postE)).2.queue = []) ∧
      (ErrorQueue.run ⟨[]⟩ (preE ++ postE)).1
          = (ErrorQueue.run ⟨[]⟩ preE).1
            ++ (ErrorQueue.run (ErrorQueue.run ⟨[]⟩ preE).2 postE).1 ∧
      dequeued (ErrorQueue.run ⟨[]⟩ preE).1 <+: pushedItems preE) := by
  refine ⟨?_, ?_, ?_⟩
  · have hc := runOps_UserQueue_conserve D d (preU ++ postU) []
    rw [List.nil_append] at hc
    have hp := runOps_UserQueue_conserve D d preU []
    rw [List.nil_append] at hp
    have hf := front_of_distinct hc hU hUd
    exact ⟨hf.1, hf.2.1, hf.2.2,
      congrArg Prod.fst (runOps_append _ _ _ preU postU _), ⟨_, hp⟩⟩
  · have hc := (runOps_CodeQueue_conserve (preC ++ postC) []).1
    rw [List.nil_append] at hc
    have hp := (runOps_CodeQueue_conserve preC []).1
    rw [List.nil_append] at hp
    have hf := front_of_distinct hc hC hCd
    exact ⟨hf.1, hf.2.1, hf.2.2,
      congrArg Prod.fst (runOps_append _ _ _ preC postC _), ⟨_, hp⟩⟩
  · have hc := runOps_ErrorQueue_conserve (preE ++ postE) []
    rw [List.nil_append] at hc
    have hp := runOps_ErrorQueue_conserve preE []
    rw [List.nil_append] at hp
    have hf := front_of_distinct hc hE hEd
    exact ⟨hf.1, hf.2.1, hf.2.2,
      congrArg Prod.fst (runOps_append _ _ _ preE postE _), ⟨_, hp⟩⟩

/-- C12, amended, at N = 2 pushers with M = 1 item each. UserQueue: a pop
before the first push, then the second push and three pops; CodeQueue: one
pop between the two pushes; ErrorQueue: one pop between the two pushes. The
statement holds the six conditions on the pushes of the three orders, and
from the theorem the counts of the UserQueue and of the CodeQueue and the
log of the ErrorQueue in two parts. -/
theorem interleaving_safety_witness :
    ((pushedItems ([Op.pop (), Op.push (some 1)]
          ++ [Op.push (some 2), Op.pop (), Op.pop (), Op.pop ()] :
          List (Op (User Nat) Unit))).length = 2 * 1 ∧
      (pushedItems ([Op.pop (), Op.push (some 1)]
          ++ [Op.push (some 2), Op.pop (), Op.pop (), Op.pop ()] :
          List (Op (User Nat) Unit))).Nodup ∧
      (pushedItems ([Op.push "a"]
          ++ [Op.pop (fun (_ : Nat) => ("", (none : GoError Unit))), Op.push "b"])).length
        = 2 * 1 ∧
      (pushedItems ([Op.push "a"]
          ++ [Op.pop (fun (_ : Nat) => ("", (none : GoError Unit))), Op.push "b"])).Nodup ∧
      (pushedItems ([Op.push (some ⟨429, "rate_limited", "too many requests"⟩), Op.pop ()]
          ++ [Op.push (some ⟨500, "server_error", "forced"⟩)] :
          List (Op (Option ServerError) Unit))).length = 2 * 1 ∧
      (pushedItems ([Op.push (some ⟨429, "rate_limited", "too many requests"⟩), Op.pop ()]
          ++ [Op.push (some ⟨500, "server_error", "forced"⟩)] :
          List (Op (Option ServerError) Unit))).Nodup) ∧
    (dequeued (UserQueue.run (some 0) ⟨[], none⟩ ([Op.pop (), Op.push (some 1)]
          ++ [Op.push (some 2), Op.pop (), Op.pop (), Op.pop ()])).1).length
        + (UserQueue.run (some 0) ⟨[], none⟩ ([Op.pop (), Op.push (some 1)]
          ++ [Op.push (some 2), Op.pop (), Op.pop (), Op.pop ()])).2.queue.length
      = 2 * 1 ∧
    ((dequeued (CodeQueue.run ⟨[]⟩ ([Op.push "a"]
          ++ [Op.pop (fun (_ : Nat) => ("", (none : GoError Unit))), Op.push "b"])).1).map
            (fun e => e.1)).length
        + (CodeQueue.run ⟨[]⟩ ([Op.push "a"]
          ++ [Op.pop (fun (_ : Nat) => ("", (none : GoError Unit))), Op.push "b"])).2.queue.length
      = 2 * 1 ∧
    (ErrorQueue.run ⟨[]⟩
        ([Op.push (some ⟨429, "rate_limited", "too many requests"⟩), Op.pop ()]
          ++ [Op.push (some ⟨500, "server_error", "forced"⟩)])).1
      = (ErrorQueue.run ⟨[]⟩
          [Op.push (some ⟨429, "rate_limited", "too many requests"⟩), Op.pop ()]).1
        ++ (ErrorQueue.run (ErrorQueue.run ⟨[]⟩
            [Op.push (some ⟨429, "rate_limited", "too many requests"⟩), Op.pop ()]).2
          [Op.push (some ⟨500, "server_error", "forced"⟩)]).1 := by
  have hU : (pushedItems ([Op.pop (), Op.push (some 1)]
      ++ [Op.push (some 2), Op.pop (), Op.pop (), Op.pop ()] :
      List (Op (User Nat) Unit))).length = 2 * 1 := by decide
  have hUd : (pushedItems ([Op.pop (), Op.push (some 1)]
      ++ [Op.push (some 2), Op.pop (), Op.pop (), Op.pop ()] :
      List (Op (User Nat) Unit))).Nodup := by decide
  have hC : (pushedItems ([Op.push "a"]
      ++ [Op.pop (fun (_ : Nat) => ("", (none : GoError Unit))), Op.push "b"])).length
      = 2 * 1 := by decide
  have hCd : (pushedItems ([Op.push "a"]
      ++ [Op.pop (fun (_ : Nat) => ("", (none : GoError Unit))), Op.push "b"])).Nodup := by
    decide
  have hE : (pushedItems
      ([Op.push (some ⟨429, "rate_limited", "too many requests"⟩), Op.pop ()]
        ++ [Op.push (some ⟨500, "server_error", "forced"⟩)] :
        List (Op (Option ServerError) Unit))).length = 2 * 1 := by decide
  have hEd : (pushedItems
      ([Op.push (some ⟨429, "rate_limited", "too many requests"⟩), Op.pop ()]
        ++ [Op.push (some ⟨500, "server_error", "forced"⟩)] :
        List (Op (Option ServerError) Unit))).Nodup := by decide
  have h := interleaving_safety 2 1 (some 0) none _ _ _ _ _ _ hU hUd hC hCd hE hEd
  exact ⟨⟨hU, hUd, hC, hCd, hE, hEd⟩, h.1.2.1, h.2.1.2.1, h.2.2.2.2.2.1⟩

/-! ## Lock discipline -/

section locking

variable {Q β : Type}

/-- A method called while the mutex of its queue is free returns: the mutex was
acquired once, the statements ran with it held, it was released, and the
set of held mutexes is the one found at the call. -/
theorem Guarded_locked_free (body : Q → β × Q) (self : Nat) (held : List Nat)
    (ev : List LockEvent) (q : Q) (hfree : self ∉ held) :
    Guarded.locked body ⟨self, held, ev, q⟩
      = some ((body q).1, ⟨self, held, ev ++ LockEvent.ofCall self, (body q).2⟩) := by
  simp [Guarded.locked, Guarded.Lock, Guarded.Unlock, Guarded.exec, LockEvent.ofCall,
    hfree]

/-- A method called while the mutex of its queue is held does not get past
q.Lock(): it does not return and its statements do not run. -/
theorem Guarded_locked_held (body : Q → β × Q) (self : Nat) (busy : List Nat)
    (ev : List LockEvent) (q : Q) (hbusy : self ∈ busy) :
    Guarded.locked body ⟨self, busy, ev, q⟩ = none := by
  simp [Guarded.locked, Guarded.Lock, hbusy]

end locking

/-- C13. Lock discipline. Let a queue have the mutex with address self, let
held be the mutexes of the program that are held at the call, self not among
them, and ev the record so far. Each of the seven operations then returns,
with the result and the fields of its method body; it adds to the record
exactly one Lock of self, the run of its statements with self held, and one
Unlock of self, and nothing about another mutex; and the held mutexes are
again exactly those of held, so self is free and every other mutex is as it
was. This holds in every state and for every behaviour of randomNonce, hence
on every return path; the two fallback returns of UserQueue.Pop and the
generated-code and generation-failure returns of CodeQueue.Pop are spelled
out. On a set busy of held mutexes that has self in it, none of the seven
gets past q.Lock(). -/
theorem lock_discipline {υ ε : Type} (D user : User υ) (x : υ) (qu : UserQueue υ)
    (rn : Nat → String × GoError ε) (code c : String) (e : ε) (qc : CodeQueue)
    (se : Option ServerError) (qe : ErrorQueue)
    (self : Nat) (held busy : List Nat) (ev : List LockEvent)
    (hfree : self ∉ held) (hbusy : self ∈ busy) :
    (UserQueue.PushLocked ⟨self, held, ev, qu⟩ user
        = some ((), ⟨self, held, ev ++ LockEvent.ofCall self, UserQueue.Push qu user⟩) ∧
      UserQueue.PopLocked D ⟨self, held, ev, qu⟩
        = some ((UserQueue.Pop D qu).1,
            ⟨self, held, ev ++ LockEvent.ofCall self, (UserQueue.Pop D qu).2⟩) ∧
      UserQueue.SetDefaultUserLocked ⟨self, held, ev, qu⟩ user
        = some ((), ⟨self, held, ev ++ LockEvent.ofCall self,
            UserQueue.SetDefaultUser qu user⟩) ∧
      CodeQueue.PushLocked ⟨self, held, ev, qc⟩ code
        = some ((), ⟨self, held, ev ++ LockEvent.ofCall self, CodeQueue.Push qc code⟩) ∧
      CodeQueue.PopLocked rn ⟨self, held, ev, qc⟩
        = some ((CodeQueue.Pop rn qc).1,
            ⟨self, held, ev ++ LockEvent.ofCall self, (CodeQueue.Pop rn qc).2⟩) ∧
      ErrorQueue.PushLocked ⟨self, held, ev, qe⟩ se
        = some ((), ⟨self, held, ev ++ LockEvent.ofCall self, ErrorQueue.Push qe se⟩) ∧
      ErrorQueue.PopLocked ⟨self, held, ev, qe⟩
        = some ((ErrorQueue.Pop qe).1,
            ⟨self, held, ev ++ LockEvent.ofCall self, (ErrorQueue.Pop qe).2⟩)) ∧
    (UserQueue.PopLocked D ⟨self, held, ev, ⟨[], some x⟩⟩
        = some (some x, ⟨self, held, ev ++ LockEvent.ofCall self, ⟨[], some x⟩⟩) ∧
      UserQueue.PopLocked D ⟨self, held, ev, ⟨[], none⟩⟩
        = some (D, ⟨self, held, ev ++ LockEvent.ofCall self, ⟨[], none⟩⟩) ∧
      CodeQueue.PopLocked (fun _ => (c, (none : GoError ε))) ⟨self, held, ev, ⟨[]⟩⟩
        = some ((c, none), ⟨self, held, ev ++ LockEvent.ofCall self, ⟨[]⟩⟩) ∧
      CodeQueue.PopLocked (fun _ => (c, some e)) ⟨self, held, ev, ⟨[]⟩⟩
        = some (("", some e), ⟨self, held, ev ++ LockEvent.ofCall self, ⟨[]⟩⟩)) ∧
    (UserQueue.PushLocked ⟨self, busy, ev, qu⟩ user = none ∧
      UserQueue.PopLocked D ⟨self, busy, ev, qu⟩ = none ∧
      UserQueue.SetDefaultUserLocked ⟨self, busy, ev, qu⟩ user = none ∧
      CodeQueue.PushLocked ⟨self, busy, ev, qc⟩ code = none ∧
      CodeQueue.PopLocked rn ⟨self, busy, ev, qc⟩ = none ∧
      ErrorQueue.PushLocked ⟨self, busy, ev, qe⟩ se = none ∧
      ErrorQueue.PopLocked ⟨self, busy, ev, qe⟩ = none) ∧
    LockEvent.ofCall self
      = [LockEvent.acquire self, LockEvent.body self true, LockEvent.release self] := by
  refine ⟨⟨Guarded_locked_free _ self held ev qu hfree,
      Guarded_locked_free _ self held ev qu hfree,
      Guarded_locked_free _ self held ev qu hfree,
      Guarded_locked_free _ self held ev qc hfree,
      Guarded_locked_free _ self held ev qc hfree,
      Guarded_locked_free _ self held ev qe hfree,
      Guarded_locked_free _ self held ev qe hfree⟩,
    ⟨?_, ?_, ?_, ?_⟩,
    ⟨Guarded_locked_held _ self busy ev qu hbusy,
      Guarded_locked_held _ self busy ev qu hbusy,
      Guarded_locked_held _ self busy ev qu hbusy,
      Guarded_locked_held _ self busy ev qc hbusy,
      Guarded_locked_held _ self busy ev qc hbusy,
      Guarded_locked_held _ self busy ev qe hbusy,
      Guarded_locked_held _ self busy ev qe hbusy⟩, rfl⟩
  · rw [UserQueue.PopLocked, Guarded_locked_free _ _ _ _ _ hfree, UserQueue_Pop_nil_some]
  · rw [UserQueue.PopLocked, Guarded_locked_free _ _ _ _ _ hfree, UserQueue_Pop_nil_none]
  · rw [CodeQueue.PopLocked, Guarded_locked_free _ _ _ _ _ hfree,
      CodeQueue_Pop_nil_ok (fun _ => (c, (none : GoError ε))) c rfl]
  · rw [CodeQueue.PopLocked, Guarded_locked_free _ _ _ _ _ hfree,
      CodeQueue_Pop_nil_err (fun _ => (c, some e)) c e rfl]

/-- C13 at a queue whose mutex has address 1 while the mutex 2 of another
queue is held. A Pop of the UserQueue holding user 5 returns user 5, and a
Pop of the empty CodeQueue whose randomNonce fails returns the error: the
record gains one Lock of 1, the statements under it and one Unlock of 1, and
mutex 2 alone is held afterwards as before. With mutex 1 held as well, the
Pop of the ErrorQueue does not return. -/
theorem lock_discipline_witness :
    (1 ∉ [2] ∧ 1 ∈ [2, 1]) ∧
    UserQueue.PopLocked (some 0) ⟨1, [2], [], (⟨[some 5], some 9⟩ : UserQueue Nat)⟩
      = some (some 5, ⟨1, [2],
          [LockEvent.acquire 1, LockEvent.body 1 true, LockEvent.release 1],
          ⟨[], some 9⟩⟩) ∧
    CodeQueue.PopLocked (fun _ => ("abc", some "entropy")) ⟨1, [2], [], ⟨[]⟩⟩
      = some (("", some "entropy"), ⟨1, [2],
          [LockEvent.acquire 1, LockEvent.body 1 true, LockEvent.release 1], ⟨[]⟩⟩) ∧
    ErrorQueue.PopLocked ⟨1, [2, 1], [], ⟨[]⟩⟩ = none := by
  have h := lock_discipline (some 0) none 0 (⟨[some 5], some 9⟩ : UserQueue Nat)
    (fun _ => ("abc", some "entropy")) "" "abc" "entropy" ⟨[]⟩ none ⟨[]⟩
    1 [2] [2, 1] [] (by decide) (by decide)
  exact ⟨⟨by decide, by decide⟩, h.1.2.1, h.2.1.2.2.2, h.2.2.1.2.2.2.2.2.2⟩

/-! ## Slice accesses stay in bounds -/

/-- C14. Pop is total and its slice accesses are in bounds: over the checked
slice accesses every Pop, in every state, returns what the Pop above returns
and never a panic, although queue[0] and queue[1:] do panic on the empty
slice and succeed exactly on a slice of length at least 1. So the accesses
are reached only when the item sequence has at least one item. -/
theorem pop_total_in_bounds {υ ε α : Type} (D : User υ) (qu : UserQueue υ)
    (rn : Nat → String × GoError ε) (qc : CodeQueue) (qe : ErrorQueue)
    (s : List α) :
    UserQueue.PopChecked D qu = Except.ok (UserQueue.Pop D qu) ∧
    CodeQueue.PopChecked rn qc = Except.ok (CodeQueue.Pop rn qc) ∧
    ErrorQueue.PopChecked qe = Except.ok (ErrorQueue.Pop qe) ∧
    goIndex ([] : List α) 0 = Except.error Panic.indexOutOfRange ∧
    goSliceFrom ([] : List α) 1 = Except.error Panic.sliceBoundsOutOfRange ∧
    ((∃ x, goIndex s 0 = Except.ok x) ↔ 1 ≤ s.length) ∧
    ((∃ r, goSliceFrom s 1 = Except.ok r) ↔ 1 ≤ s.length) := by
  refine ⟨?_, ?_, ?_, rfl, rfl, ?_, ?_⟩
  · rcases qu with ⟨_ | ⟨h, t⟩, d⟩
    · cases d <;> simp [UserQueue.PopChecked, UserQueue.Pop]
    · simp [UserQueue.PopChecked, UserQueue.Pop, goIndex, goSliceFrom]
  · rcases qc with ⟨_ | ⟨h, t⟩⟩
    · rcases hrn : rn 24 with ⟨c, _ | e⟩ <;>
        simp [CodeQueue.PopChecked, CodeQueue.Pop, hrn]
    · simp [CodeQueue.PopChecked, CodeQueue.Pop, goIndex, goSliceFrom]
  · rcases qe with ⟨_ | ⟨h, t⟩⟩
    · simp [ErrorQueue.PopChecked, ErrorQueue.Pop]
    · simp [ErrorQueue.PopChecked, ErrorQueue.Pop, goIndex, goSliceFrom]
  · cases s <;> simp [goIndex]
  · cases s <;> simp [goSliceFrom]

/-! ## Scripted codes -/

/-- C15. Scripted codes are deterministic: on a non-empty item sequence h :: t
the Pop of a CodeQueue returns h with a nil error and leaves t, the same for
any two behaviours rn1 and rn2 of randomNonce, one that always fails
included. With randomNonce reading from a source of randomness, the source
is handed back untouched on a non-empty queue, and after exactly the call
randomNonce(24) on an empty one: the helper is consulted only when the
queue is empty. -/
theorem scripted_codes_deterministic {ρ ε : Type}
    (rn1 rn2 : Nat → String × GoError ε) (e : ε)
    (rnS : Nat → ρ → (String × GoError ε) × ρ) (src : ρ)
    (h : String) (t : List String) :
    CodeQueue.Pop rn1 ⟨h :: t⟩ = CodeQueue.Pop rn2 ⟨h :: t⟩ ∧
    CodeQueue.Pop rn1 ⟨h :: t⟩ = ((h, none), ⟨t⟩) ∧
    CodeQueue.Pop (fun _ => ("", some e)) ⟨h :: t⟩ = ((h, none), ⟨t⟩) ∧
    CodeQueue.PopFrom rnS src ⟨h :: t⟩ = ((h, none), ⟨t⟩, src) ∧
    (CodeQueue.PopFrom rnS src ⟨[]⟩).2.2 = (rnS 24 src).2 ∧
    ((CodeQueue.PopFrom rnS src ⟨[]⟩).1, (CodeQueue.PopFrom rnS src ⟨[]⟩).2.1)
      = CodeQueue.Pop (fun n => (rnS n src).1) ⟨[]⟩ := by
  refine ⟨by simp, by simp, by simp, by simp [CodeQueue.PopFrom], ?_, ?_⟩
  · rcases hrn : rnS 24 src with ⟨⟨c, _ | e2⟩, s1⟩ <;> simp [CodeQueue.PopFrom, hrn]
  · rcases hrn : rnS 24 src with ⟨⟨c, _ | e2⟩, s1⟩ <;>
      simp [CodeQueue.PopFrom, CodeQueue.Pop, hrn]

/-! ## Absence means empty -/

/-- C16. Absence means empty, when only real descriptors are queued: for every
ErrorQueue whose queued descriptors are all non-nil, Pop returns nil if and
only if the item sequence is empty; and the queue that Pop leaves, and the
queue after a Push of a non-nil descriptor d, again hold non-nil descriptors
only. -/
theorem absence_means_empty (q : ErrorQueue) (d : ServerError)
    (hq : q.allNonNil = true) :
    ((ErrorQueue.Pop q).1 = none ↔ q.queue = []) ∧
    (ErrorQueue.Pop q).2.allNonNil = true ∧
    (ErrorQueue.Push q (some d)).allNonNil = true := by
  rcases q with ⟨_ | ⟨h, t⟩⟩
  · simp [ErrorQueue.allNonNil]
  · simp only [ErrorQueue.allNonNil, List.all_cons, Bool.and_eq_true] at hq
    obtain ⟨hh, ht⟩ := hq
    refine ⟨?_, ?_, ?_⟩
    · cases h with
      | none => simp at hh
      | some v => simp
    · simpa [ErrorQueue.allNonNil] using ht
    · simp only [ErrorQueue_Push_mk, ErrorQueue.allNonNil, List.cons_append, List.all_cons,
        List.all_append, Bool.and_eq_true]
      exact ⟨hh, ht, by simp⟩

/-- C16 at the queue holding the one descriptor 429 rate_limited, with a
descriptor 500 pushed. -/
theorem absence_means_empty_witness :
    ErrorQueue.allNonNil ⟨[some ⟨429, "rate_limited", "too many requests"⟩]⟩ = true ∧
    (((ErrorQueue.Pop ⟨[some ⟨429, "rate_limited", "too many requests"⟩]⟩).1 = none ↔
        (⟨[some ⟨429, "rate_limited", "too many requests"⟩]⟩ : ErrorQueue).queue = []) ∧
      (ErrorQueue.Pop ⟨[some ⟨429, "rate_limited", "too many requests"⟩]⟩).2.allNonNil
        = true ∧
      (ErrorQueue.Push ⟨[some ⟨429, "rate_limited", "too many requests"⟩]⟩
        (some ⟨500, "server_error", "forced"⟩)).allNonNil = true) :=
  ⟨rfl, absence_means_empty _ ⟨500, "server_error", "forced"⟩ rfl⟩

/-! ## The configured default persists -/

/-- After a non-nil default x is stored, every pop of a script that finds the
queue without items returns x. -/
theorem runOps_UserQueue_fallback {υ : Type} (D : User υ) (x : υ)
    (ops : List (Op (User υ) Unit)) (s : List (User υ)) :
    ∀ e ∈ (runOps UserQueue.Push (fun _ => UserQueue.Pop D) (fun q => q.queue.length)
      ⟨s, some x⟩ ops).1, e.1 = false → e.2 = some x := by
  induction ops generalizing s with
  | nil => simp [runOps]
  | cons op ops ih =>
    cases op with
    | push u => simpa [runOps] using ih (s ++ [u])
    | pop env =>
      cases s with
      | nil =>
        intro e he
        simp only [runOps, UserQueue_Pop_nil_some, List.mem_cons] at he
        rcases he with rfl | he
        · simp
        · exact ih [] e he
      | cons h t =>
        intro e he
        simp only [runOps, UserQueue_Pop_cons, List.mem_cons] at he
        rcases he with rfl | he
        · simp
        · exact ih t e he

/-- C17. The configured default persists: Push and Pop of a UserQueue leave the
defaultUser field as it is; so for every non-nil identity x, every state q
and every script of pushes and pops run after SetDefaultUser(x), the default
is still x at the end and every pop of the script that finds the item
sequence empty returns x. -/
theorem default_persists {υ : Type} (D u : User υ) (x : υ) (q : UserQueue υ)
    (ops : List (Op (User υ) Unit)) :
    (UserQueue.Push q u).defaultUser = q.defaultUser ∧
    (UserQueue.Pop D q).2.defaultUser = q.defaultUser ∧
    (UserQueue.run D (UserQueue.SetDefaultUser q (some x)) ops).2.defaultUser
      = some x ∧
    ∀ e ∈ (UserQueue.run D (UserQueue.SetDefaultUser q (some x)) ops).1,
      e.1 = false → e.2 = some x := by
  rcases q with ⟨s, d⟩
  refine ⟨rfl, ?_, runOps_UserQueue_defaultUser D (some x) ops s,
    runOps_UserQueue_fallback D x ops s⟩
  cases s with
  | nil => rw [UserQueue_Pop_nil_state]
  | cons h t => simp

end Mockoidc
